import Mathlib

/-!
Shallow embedding of the wafer-detection cascade of
`src/wafer-detection.js` (class `WaferDetector`): the instant
template gate, the ORB geometric-verification fallback, the decision
smoother, the pass latch and the reference-image loaders.

OpenCV calls (`matchTemplate`/`minMaxLoc`, `knnMatch`,
`findHomography`, `perspectiveTransform`, `detectAndCompute`) are
opaque external computations: each detection cycle receives their
outputs as inputs (a per-reference template score, per-reference
knn-match distance lists, an optional homography-fit result, and the
number of frame descriptors), and the control flow of the JS loop
body is reproduced faithfully over those inputs.  Scores and
distances are modelled as rationals, counts as naturals.
-/

namespace Wafer

/-- The tunables of `WaferDetector`'s constructor (plus the ones
`updateSettings` may overwrite).  Defaults are the constructor's. -/
structure Config where
  INSTANT_TEMPLATE : Bool := true
  TMPL_THR : ℚ := 0.55
  RATIO_THR : ℚ := 0.90   -- the source calls this CONF_RATIO
  MIN_GOOD_MATCHES : ℕ := 3
  MIN_INLIERS : ℕ := 6
  SMOOTH_N : ℕ := 5
  SHOW_DEBUG : Bool := true
  deriving Repr, DecidableEq

/-- Result of a successful, non-degenerate `cv.findHomography` call for
one reference on the current frame: the inlier count
(`cv.countNonZero(mask)`) and the projected corner quadrilateral
(`cv.perspectiveTransform(ref.corners, quad, H)`, flattened as in
`Array.from(quad.data32F)`). -/
structure FitResult where
  inliers : ℕ
  quad : List ℚ
  deriving Repr, DecidableEq

/-- Per-cycle, per-reference inputs to the loop body: whether the
reference still has its template and response buffer (`ref.tmpl`,
`ref.res`), the maximum normalized cross-correlation score
(`cv.minMaxLoc(ref.res).maxVal`), the distance vectors returned by
`matcher.knnMatch(ref.des, desFrame, matches, 2)` (each inner list is
one reference descriptor's neighbour distances, at most 2), and the
homography fit outcome (`none` when `findHomography` threw or returned
an empty matrix). -/
structure RefCycleInput where
  hasTmplRes : Bool := true
  tmplMaxVal : ℚ
  knn : List (List ℚ) := []
  fit : Option FitResult := none
  deriving Repr, DecidableEq

/-- Per-cycle frame-side input: the number of descriptors
`detector.detectAndCompute` extracted from the downscaled frame
(`desFrame.rows`). -/
structure FrameInput where
  desRows : ℕ
  deriving Repr, DecidableEq

/-- One whole cycle's inputs. -/
structure CycleInput where
  refs : List RefCycleInput
  frame : FrameInput
  deriving Repr, DecidableEq

/-! ## Instant template gate (lines 410-423) -/

/-- Value of `templateHit` after the gate loop: for every reference with a
template and response buffer, `cv.matchTemplate` +
`cv.minMaxLoc` give `maxVal`; `templateHit` is set when
`mm.maxVal >= this.TMPL_THR` for some reference (the loop has no
break, so the result is the disjunction over all references). -/
def gateHit (cfg : Config) (refs : List RefCycleInput) : Bool :=
  refs.any fun r => r.hasTmplRes && decide (cfg.TMPL_THR ≤ r.tmplMaxVal)

/-! ## Ratio test and good matches (lines 437-445) -/

/-- The Lowe ratio test of line 443: keep the pair iff
`m.distance < this.CONF_RATIO * n.distance`. -/
def keepMatch (rt d1 d2 : ℚ) : Bool :=
  decide (d1 < rt * d2)

/-- The `good` list built from the knn output: a match vector
contributes iff it has exactly two entries (`mv.size() === 2`) and the
ratio test passes. -/
def goodMatches (rt : ℚ) (knn : List (List ℚ)) : List (ℚ × ℚ) :=
  knn.filterMap fun mv =>
    match mv with
    | [d1, d2] => if keepMatch rt d1 d2 then some (d1, d2) else none
    | _ => none

/-! ## Geometric-verification fallback loop (lines 432-484) -/

/-- The running best of the fallback loop: `bestInliers` and
`bestQuad`. -/
structure FbState where
  bestInliers : ℕ := 0
  bestQuad : Option (List ℚ) := none
  deriving Repr, DecidableEq

/-- The loop body for one reference: skip if fewer than
`MIN_GOOD_MATCHES` ratio-surviving matches (line 447, `continue`);
skip if the homography fit failed or was degenerate (the `catch {}` /
`!H.empty()` guard of lines 463-479); otherwise update the best state
when `inliers > bestInliers`, recording the projected quadrilateral
only when `SHOW_DEBUG`. -/
def fallbackStep (cfg : Config) (st : FbState) (r : RefCycleInput) : FbState :=
  let good := goodMatches cfg.RATIO_THR r.knn
  if good.length < cfg.MIN_GOOD_MATCHES then st
  else
    match r.fit with
    | none => st
    | some f =>
      if st.bestInliers < f.inliers then
        { bestInliers := f.inliers
          bestQuad := if cfg.SHOW_DEBUG then some f.quad else st.bestQuad }
      else st

/-- The fallback loop with early exit: after each reference the code
checks `if (bestInliers >= this.MIN_INLIERS) break;` (line 482). -/
def fallbackLoop (cfg : Config) : List RefCycleInput → FbState → FbState
  | [], st => st
  | r :: rs, st =>
    let st' := fallbackStep cfg st r
    if cfg.MIN_INLIERS ≤ st'.bestInliers then st' else fallbackLoop cfg rs st'

/-- The same loop with the early exit removed: every reference is
evaluated.  Used only to compare against `fallbackLoop`. -/
def fallbackLoopAll (cfg : Config) (rs : List RefCycleInput) (st : FbState) : FbState :=
  rs.foldl (fallbackStep cfg) st

/-! ## One detection cycle (lines 393-514, pure part) -/

/-- Everything the loop body computes for one frame, before smoothing. -/
structure CycleResult where
  waferPresent : Bool
  bestInliers : ℕ
  bestQuad : Option (List ℚ)
  templateHit : Bool
  /-- whether the `if (!waferPresent)` fallback block was entered -/
  fallbackRan : Bool
  deriving Repr, DecidableEq

/-- The per-frame decision logic of `_startDetectionLoop` (lines
405-487): `waferPresent`, `bestInliers`, `bestQuad`, `templateHit`
initialised; the instant gate runs when `INSTANT_TEMPLATE`; then
`if (!waferPresent)` the ORB fallback runs — its per-reference loop
only when `desFrame.rows >= 8` — and finally
`waferPresent = (templateHit && bestInliers >= MIN_INLIERS)`. -/
def runCycle (cfg : Config) (input : CycleInput) : CycleResult :=
  let waferPresent := false
  let templateHit := if cfg.INSTANT_TEMPLATE then gateHit cfg input.refs else false
  if !waferPresent then
    let fb :=
      if 8 ≤ input.frame.desRows then
        fallbackLoop cfg input.refs {}
      else
        {}
    { waferPresent := templateHit && decide (cfg.MIN_INLIERS ≤ fb.bestInliers)
      bestInliers := fb.bestInliers
      bestQuad := fb.bestQuad
      templateHit := templateHit
      fallbackRan := true }
  else
    { waferPresent := waferPresent
      bestInliers := 0
      bestQuad := none
      templateHit := templateHit
      fallbackRan := false }

/-! ## Decision smoother (lines 490-492) -/

/-- Lines `this.hits.push(waferPresent); if (this.hits.length > this.SMOOTH_N)
this.hits.shift();` — append, then drop the oldest entry when over
capacity. -/
def pushHit (N : ℕ) (hits : List Bool) (h : Bool) : List Bool :=
  let hits' := hits ++ [h]
  if N < hits'.length then hits'.tail else hits'

/-- The hit window after pushing a whole sequence, starting from the
empty history (as `startDetection` resets `this.hits = []`). -/
def runHits (N : ℕ) (xs : List Bool) : List Bool :=
  xs.foldl (pushHit N) []

/-- Value of `const decided = this.hits.some(Boolean)` after the k-th push. -/
def decidedAfter (N : ℕ) (xs : List Bool) (k : ℕ) : Bool :=
  (runHits N (xs.take (k + 1))).any id

/-! ## Pass latch (lines 494-499) -/

/-- Line `if (decided && !this.passed) this.passed = true` — the
only write to `passed` inside the loop. -/
def latchStep (passed decided : Bool) : Bool :=
  if decided && !passed then true else passed

/-! ## Whole-cycle session state (smoother + latch + overlay) -/

/-- The mutable session state the loop body reads and writes. -/
structure SessionState where
  hits : List Bool := []
  passed : Bool := false
  lastQuad : Option (List ℚ) := none
  deriving Repr, DecidableEq

/-- One full cycle: run the decision logic, push into the smoother,
update the latch, and set `lastQuad` (line 502: only when
`SHOW_DEBUG`, a quad exists, and the session has not passed). -/
def cycleStep (cfg : Config) (st : SessionState) (input : CycleInput) : SessionState :=
  let r := runCycle cfg input
  let hits' := pushHit cfg.SMOOTH_N st.hits r.waferPresent
  let decided := hits'.any id
  let passed' := latchStep st.passed decided
  { hits := hits'
    passed := passed'
    lastQuad :=
      if cfg.SHOW_DEBUG && r.bestQuad.isSome && !passed' then r.bestQuad else none }

/-- A whole session segment: fold the loop body over a list of cycle
inputs. -/
def runSession (cfg : Config) (st : SessionState) (inputs : List CycleInput) : SessionState :=
  inputs.foldl (cycleStep cfg) st

/-! ## Reference loading (lines 149-295) -/

/-- What `detectAndCompute` produced for one candidate reference image:
its name and the number of descriptor rows (`des.rows`). -/
structure RefImage where
  name : String
  desRows : ℕ
  deriving Repr, DecidableEq

/-- A loaded reference as stored in `this.refs` (the fields the claims
need). -/
structure Ref where
  name : String
  desRows : ℕ
  deriving Repr, DecidableEq

/-- Tail of `_processRefFile` / `_loadRefFromPath` after feature extraction:
`if (!des || des.rows < 8) { ...; resolve(null); return; }` — a weak
reference resolves to `null`, otherwise to a loaded reference. -/
def processRefFile (img : RefImage) : Option Ref :=
  if img.desRows < 8 then none else some ⟨img.name, img.desRows⟩

/-- Loader `loadCustomReferenceImages` (and `loadReferenceImages` via
`Promise.allSettled`): after clearing `this.refs`, push every
non-null result, in input order. -/
def loadRefImages (files : List RefImage) : List Ref :=
  files.filterMap processRefFile

/-! ## Smoother lemmas -/

/-- After any sequence of pushes starting from a history no longer
than the capacity, the history is exactly the suffix of the combined
sequence that fits the capacity. -/
theorem foldl_pushHit_eq (N : ℕ) (hN : 1 ≤ N) :
    ∀ (ys s : List Bool), s.length ≤ N →
      ys.foldl (pushHit N) s = (s ++ ys).drop (s.length + ys.length - N) := by
  intro ys
  induction ys with
  | nil =>
    intro s hs
    have h0 : s.length - N = 0 := by omega
    simp [h0]
  | cons x ys ih =>
    intro s hs
    rw [List.foldl_cons]
    by_cases hlen : N < (s ++ [x]).length
    · -- capacity exceeded: the oldest entry is shifted out
      have hsN : s.length = N := by simp at hlen; omega
      have hstep : pushHit N s x = (s ++ [x]).tail := by
        simp only [pushHit]
        rw [if_pos hlen]
      cases s with
      | nil => simp at hsN; omega
      | cons a s' =>
        have htail : ((a :: s') ++ [x]).tail = s' ++ [x] := by simp
        rw [hstep, htail]
        have hlen' : (s' ++ [x]).length ≤ N := by
          simp at hsN ⊢; omega
        rw [ih (s' ++ [x]) hlen']
        have hdrop : (s' ++ [x]).length + ys.length - N = ys.length := by
          simp at hsN ⊢; omega
        have hdrop' : (a :: s').length + (x :: ys).length - N = ys.length + 1 := by
          simp at hsN ⊢; omega
        rw [hdrop, hdrop']
        have : (a :: s') ++ x :: ys = a :: ((s' ++ [x]) ++ ys) := by simp
        rw [this, List.drop_succ_cons]
    · -- still under capacity: plain append
      have hstep : pushHit N s x = s ++ [x] := by
        simp only [pushHit]
        rw [if_neg hlen]
      rw [hstep]
      have hlen' : (s ++ [x]).length ≤ N := by simp at hlen ⊢; omega
      rw [ih (s ++ [x]) hlen']
      have harith : (s ++ [x]).length + ys.length - N
          = s.length + (x :: ys).length - N := by simp; omega
      rw [harith]
      simp

/-- Function `runHits` computes the suffix of the pushed sequence that fits the
window. -/
theorem runHits_eq (N : ℕ) (hN : 1 ≤ N) (xs : List Bool) :
    runHits N xs = xs.drop (xs.length - N) := by
  have h := foldl_pushHit_eq N hN xs [] (by simp)
  simpa [runHits] using h

/-! ## Claim theorems -/

/-- Concrete cycle input used in concrete evaluations: one reference
whose template score 0.60 clears the default 0.55 threshold, and a
frame from which only 5 descriptors were extracted. -/
def gateOnlyInput : CycleInput :=
  { refs := [{ tmplMaxVal := 0.60 }], frame := { desRows := 5 } }

/-- C1: the claim says a cleared instant gate marks the frame a hit
and skips the geometric-verification fallback.  The code disagrees:
`waferPresent` is still `false` when the `if (!waferPresent)` guard
runs (the gate only ever sets `templateHit`), so the fallback block
runs every cycle, and a cycle whose gate cleared but whose fallback
found no inliers is not marked a hit.  Concretely: one reference with
template score 0.60 ≥ threshold 0.55 and a frame with only 5
descriptors give `templateHit = true` yet the fallback runs and the
frame is not a hit. -/
theorem instant_gate_no_skip_C1 :
    (runCycle {} gateOnlyInput).templateHit = true ∧
    (runCycle {} gateOnlyInput).fallbackRan = true ∧
    (runCycle {} gateOnlyInput).waferPresent = false := by
  refine ⟨?_, rfl, ?_⟩ <;>
    norm_num [runCycle, gateHit, gateOnlyInput, fallbackLoop, fallbackStep]

/-- C2: in every cycle the presence flag equals
`templateHit && bestInliers >= MIN_INLIERS` (line 486), and exactly
this flag is pushed into the smoother (line 490); in particular the
fallback alone never produces a presence hit when the gate did not
clear. -/
theorem presence_flag_C2 (cfg : Config) (input : CycleInput) (st : SessionState) :
    (runCycle cfg input).waferPresent
      = ((runCycle cfg input).templateHit
          && decide (cfg.MIN_INLIERS ≤ (runCycle cfg input).bestInliers)) ∧
    (cycleStep cfg st input).hits
      = pushHit cfg.SMOOTH_N st.hits
          ((runCycle cfg input).templateHit
            && decide (cfg.MIN_INLIERS ≤ (runCycle cfg input).bestInliers)) :=
  ⟨rfl, rfl⟩

/-- C3: FIFO-OR semantics of the smoother.  For capacity `N ≥ 1` and
any hit sequence, the debounced output after the k-th push is true iff
some entry of the suffix of the first `k+1` inputs that fits the
window is true; that suffix has length `min (k+1) N`; and with `N = 1`
the smoother is the identity on its k-th input. -/
theorem smoother_fifo_or_C3 (N k : ℕ) (xs : List Bool)
    (hN : 1 ≤ N) (hk : k < xs.length) :
    (decidedAfter N xs k = true ↔ true ∈ (xs.take (k + 1)).drop (k + 1 - N)) ∧
    ((xs.take (k + 1)).drop (k + 1 - N)).length = min (k + 1) N ∧
    (N = 1 → decidedAfter 1 xs k = xs.getD k false) := by
  have hlen : (xs.take (k + 1)).length = k + 1 := by
    simp [List.length_take]
    omega
  have hrun : runHits N (xs.take (k + 1))
      = (xs.take (k + 1)).drop (k + 1 - N) := by
    rw [runHits_eq N hN, hlen]
  refine ⟨?_, ?_, ?_⟩
  · simp [decidedAfter, hrun, List.any_eq_true]
  · simp [List.length_drop, hlen]
    omega
  · intro hN1
    subst hN1
    have hrun1 : runHits 1 (xs.take (k + 1)) = (xs.take (k + 1)).drop k := by
      simpa using hrun
    have hdt : (xs.take (k + 1)).drop k = [xs.getD k false] := by
      have h1 : (xs.take (k + 1)).drop k = (xs.drop k).take 1 := by
        rw [List.drop_take]
        have hone : k + 1 - k = 1 := by omega
        rw [hone]
      have h2 : xs.drop k = xs.getD k false :: xs.drop (k + 1) := by
        rw [List.getD_eq_getElem xs false hk]
        exact List.drop_eq_getElem_cons hk
      rw [h1, h2]
      simp
    simp [decidedAfter, hrun1, hdt]

/-- Witness for C3: window 3, sequence false-false-true, output after
the third push. -/
theorem smoother_fifo_or_C3_witness :
    (1 ≤ 3 ∧ 2 < ([false, false, true] : List Bool).length) ∧
    ((decidedAfter 3 [false, false, true] 2 = true
        ↔ true ∈ (([false, false, true] : List Bool).take 3).drop 0) ∧
     ((([false, false, true] : List Bool).take 3).drop 0).length = min 3 3 ∧
     (3 = 1 → decidedAfter 1 [false, false, true] 2
        = ([false, false, true] : List Bool).getD 2 false)) :=
  ⟨⟨by decide, by decide⟩,
    smoother_fifo_or_C3 3 2 [false, false, true] (by decide) (by decide)⟩

/-- C4: once `passed` is set it stays set for the rest of the session:
no sequence of later cycle inputs (hence no debounced output) ever
clears it; only `stopDetection` + `startDetection` reset it. -/
theorem pass_latch_sticky_C4 (cfg : Config) (st : SessionState)
    (inputs : List CycleInput) (hp : st.passed = true) :
    (runSession cfg st inputs).passed = true := by
  induction inputs generalizing st with
  | nil => simpa [runSession] using hp
  | cons i is ih =>
    have hstep : (cycleStep cfg st i).passed = true := by
      simp [cycleStep, latchStep, hp]
    simpa [runSession, List.foldl_cons] using ih _ hstep

/-- Witness for C4 at a concrete passed state and one further cycle. -/
theorem pass_latch_sticky_C4_witness :
    ({ passed := true } : SessionState).passed = true ∧
    (runSession {} { passed := true }
        [{ refs := [], frame := { desRows := 0 } }]).passed = true :=
  ⟨rfl, pass_latch_sticky_C4 {} { passed := true } _ rfl⟩

/-- C5: the ratio test keeps a candidate correspondence (given its
two nearest frame-descriptor distances) iff the nearest is strictly
less than the configured ratio times the second-nearest; with
nearest/second-nearest = 17/20 = 0.85, the match is kept at ratio
0.90 and at 0.95, and dropped at 0.80. -/
theorem ratio_test_C5 (rt d1 d2 : ℚ) (knn : List (List ℚ)) :
    (goodMatches rt ([d1, d2] :: knn)
      = if d1 < rt * d2 then (d1, d2) :: goodMatches rt knn
        else goodMatches rt knn) ∧
    (keepMatch rt d1 d2 = true ↔ d1 < rt * d2) ∧
    keepMatch 0.90 17 20 = true ∧
    keepMatch 0.95 17 20 = true ∧
    keepMatch 0.80 17 20 = false := by
  refine ⟨?_, ?_, ?_, ?_, ?_⟩
  · by_cases h : d1 < rt * d2 <;> simp [goodMatches, keepMatch, h]
  · simp [keepMatch]
  · norm_num [keepMatch]
  · norm_num [keepMatch]
  · norm_num [keepMatch]

/-- C6: the instant-gate hit decision is antitone in the template
threshold: a hit at threshold t' is also a hit at every t ≤ t', so
over a fixed frame sequence the number of gate hits at the higher
threshold never exceeds the number at the lower one. -/
theorem gate_threshold_antitone_C6 (cfg : Config) (t t' : ℚ)
    (refs : List RefCycleInput) (frames : List (List RefCycleInput))
    (h : t ≤ t') :
    (gateHit { cfg with TMPL_THR := t' } refs = true →
      gateHit { cfg with TMPL_THR := t } refs = true) ∧
    frames.countP (fun f => gateHit { cfg with TMPL_THR := t' } f)
      ≤ frames.countP (fun f => gateHit { cfg with TMPL_THR := t } f) := by
  have hmono : ∀ rs : List RefCycleInput,
      gateHit { cfg with TMPL_THR := t' } rs = true →
      gateHit { cfg with TMPL_THR := t } rs = true := by
    intro rs hhit
    simp only [gateHit, List.any_eq_true] at hhit ⊢
    obtain ⟨r, hr, hcond⟩ := hhit
    refine ⟨r, hr, ?_⟩
    simp only [Bool.and_eq_true, decide_eq_true_eq] at hcond ⊢
    exact ⟨hcond.1, le_trans h hcond.2⟩
  exact ⟨hmono refs, List.countP_mono_left fun f _ hf => hmono f hf⟩

/-- Witness for C6: thresholds 0.5 ≤ 0.6 on a reference scoring
0.60. -/
theorem gate_threshold_antitone_C6_witness :
    ((0.5 : ℚ) ≤ 0.6) ∧
    ((gateHit { TMPL_THR := (0.6 : ℚ) } [{ tmplMaxVal := 0.60 }] = true →
        gateHit { TMPL_THR := (0.5 : ℚ) } [{ tmplMaxVal := 0.60 }] = true) ∧
      List.countP (fun f => gateHit { TMPL_THR := (0.6 : ℚ) } f)
          [[{ tmplMaxVal := 0.60 }]]
        ≤ List.countP (fun f => gateHit { TMPL_THR := (0.5 : ℚ) } f)
          [[{ tmplMaxVal := 0.60 }]]) :=
  ⟨by norm_num,
    gate_threshold_antitone_C6 {} 0.5 0.6 [{ tmplMaxVal := 0.60 }]
      [[{ tmplMaxVal := 0.60 }]] (by norm_num)⟩

/-- C7: loading a batch keeps exactly the images with at least 8
descriptors, in order — a weak image is dropped wherever it sits in
the batch, and its exclusion does not abort the rest of the batch. -/
theorem weak_refs_dropped_C7 (files : List RefImage) :
    loadRefImages files
      = (files.filter fun f => decide (8 ≤ f.desRows)).map
          (fun f => { name := f.name, desRows := f.desRows }) ∧
    ∀ r ∈ loadRefImages files, 8 ≤ r.desRows := by
  have hmain : loadRefImages files
      = (files.filter fun f => decide (8 ≤ f.desRows)).map
          (fun f => ({ name := f.name, desRows := f.desRows } : Ref)) := by
    induction files with
    | nil => rfl
    | cons f fs ih =>
      by_cases h : f.desRows < 8
      · have h8 : ¬ (8 ≤ f.desRows) := by omega
        simpa [loadRefImages, processRefFile, h, h8] using ih
      · have h8 : 8 ≤ f.desRows := by omega
        simpa [loadRefImages, processRefFile, h, h8] using ih
  refine ⟨hmain, ?_⟩
  intro r hr
  rw [hmain] at hr
  simp only [List.mem_map, List.mem_filter] at hr
  obtain ⟨f, ⟨-, hf⟩, rfl⟩ := hr
  simpa using hf

/-- A reference whose homography fit threw or came back degenerate
leaves the fallback state untouched (both the low-match branch and the
`none`-fit branch return `st`). -/
theorem fallbackStep_none_fit (cfg : Config) (st : FbState) (r : RefCycleInput)
    (hfit : r.fit = none) : fallbackStep cfg st r = st := by
  simp [fallbackStep, hfit]

/-- Removing a failed-fit reference from anywhere in the loop does not
change the loop's result, as long as the state entering the loop is
still below the inlier bar (which every state reached without breaking
is). -/
theorem fallbackLoop_skip_none_fit (cfg : Config) (bad : RefCycleInput)
    (post : List RefCycleInput) (hfit : bad.fit = none) :
    ∀ (pre : List RefCycleInput) (st : FbState),
      st.bestInliers < cfg.MIN_INLIERS →
      fallbackLoop cfg (pre ++ bad :: post) st = fallbackLoop cfg (pre ++ post) st := by
  intro pre
  induction pre with
  | nil =>
    intro st hst
    simp only [List.nil_append, fallbackLoop]
    rw [fallbackStep_none_fit cfg st bad hfit, if_neg (by omega)]
  | cons p ps ih =>
    intro st hst
    simp only [List.cons_append, fallbackLoop]
    by_cases hbr : cfg.MIN_INLIERS ≤ (fallbackStep cfg st p).bestInliers
    · rw [if_pos hbr, if_pos hbr]
    · rw [if_neg hbr, if_neg hbr]
      exact ih _ (by omega)

/-- C8: a failed or degenerate homography fit for one reference is
non-fatal: for any positive inlier bar, the fallback loop starting
from the fresh per-cycle state produces exactly the state — in
particular the same `bestInliers` and hence the same presence
decision — it would have produced had that reference been skipped,
and the remaining references are still evaluated. -/
theorem failed_fit_nonfatal_C8 (cfg : Config) (pre post : List RefCycleInput)
    (bad : RefCycleInput) (hfit : bad.fit = none)
    (hmin : 1 ≤ cfg.MIN_INLIERS) :
    fallbackLoop cfg (pre ++ bad :: post) {} = fallbackLoop cfg (pre ++ post) {} ∧
    (fallbackLoop cfg (pre ++ bad :: post) {}).bestInliers
      = (fallbackLoop cfg (pre ++ post) {}).bestInliers := by
  have h0 : ({} : FbState).bestInliers = 0 := rfl
  have h := fallbackLoop_skip_none_fit cfg bad post hfit pre {} (by rw [h0]; omega)
  exact ⟨h, by rw [h]⟩

/-- Witness for C8: a failed-fit reference sitting before a reference
that fits with 7 inliers, under the default configuration. -/
theorem failed_fit_nonfatal_C8_witness :
    (({ tmplMaxVal := 0, knn := [[17, 20], [17, 20], [17, 20]] }
        : RefCycleInput).fit = none ∧ 1 ≤ ({} : Config).MIN_INLIERS) ∧
    (fallbackLoop {}
        ([] ++ { tmplMaxVal := 0, knn := [[17, 20], [17, 20], [17, 20]] }
          :: [{ tmplMaxVal := 0, knn := [[17, 20], [17, 20], [17, 20]],
                fit := some { inliers := 7, quad := [0, 0, 1, 0, 1, 1, 0, 1] } }]) {}
      = fallbackLoop {}
        ([] ++ [{ tmplMaxVal := 0, knn := [[17, 20], [17, 20], [17, 20]],
                  fit := some { inliers := 7, quad := [0, 0, 1, 0, 1, 1, 0, 1] } }]) {} ∧
     (fallbackLoop {}
        ([] ++ { tmplMaxVal := 0, knn := [[17, 20], [17, 20], [17, 20]] }
          :: [{ tmplMaxVal := 0, knn := [[17, 20], [17, 20], [17, 20]],
                fit := some { inliers := 7, quad := [0, 0, 1, 0, 1, 1, 0, 1] } }]) {}).bestInliers
      = (fallbackLoop {}
        ([] ++ [{ tmplMaxVal := 0, knn := [[17, 20], [17, 20], [17, 20]],
                  fit := some { inliers := 7, quad := [0, 0, 1, 0, 1, 1, 0, 1] } }]) {}).bestInliers) :=
  ⟨⟨rfl, by decide⟩, failed_fit_nonfatal_C8 {} [] _ _ rfl (by decide)⟩

/-- The step never decreases the running best inlier count. -/
theorem fallbackStep_best_le (cfg : Config) (st : FbState) (r : RefCycleInput) :
    st.bestInliers ≤ (fallbackStep cfg st r).bestInliers := by
  simp only [fallbackStep]
  split
  · exact le_refl _
  · cases hf : r.fit with
    | none => exact le_refl _
    | some f =>
      dsimp only
      split
      · next h => exact le_of_lt h
      · exact le_refl _

/-- The exhaustive loop never decreases the running best inlier
count. -/
theorem fallbackLoopAll_best_le (cfg : Config) (rs : List RefCycleInput)
    (st : FbState) :
    st.bestInliers ≤ (fallbackLoopAll cfg rs st).bestInliers := by
  induction rs generalizing st with
  | nil => exact le_refl _
  | cons r rs ih =>
    simp only [fallbackLoopAll, List.foldl_cons] at ih ⊢
    exact le_trans (fallbackStep_best_le cfg st r) (ih _)

/-- The early-exit loop never reports more inliers than the exhaustive
loop. -/
theorem fallbackLoop_le_all (cfg : Config) (rs : List RefCycleInput)
    (st : FbState) :
    (fallbackLoop cfg rs st).bestInliers ≤ (fallbackLoopAll cfg rs st).bestInliers := by
  induction rs generalizing st with
  | nil => exact le_refl _
  | cons r rs ih =>
    simp only [fallbackLoop, fallbackLoopAll, List.foldl_cons]
    by_cases hbr : cfg.MIN_INLIERS ≤ (fallbackStep cfg st r).bestInliers
    · rw [if_pos hbr]
      exact fallbackLoopAll_best_le cfg rs _
    · rw [if_neg hbr]
      exact ih _

/-- When the early-exit loop never reaches the bar, the break never
fires, so the two loops agree exactly. -/
theorem fallbackLoop_eq_all_of_lt (cfg : Config) (rs : List RefCycleInput)
    (st : FbState)
    (h : (fallbackLoop cfg rs st).bestInliers < cfg.MIN_INLIERS) :
    fallbackLoop cfg rs st = fallbackLoopAll cfg rs st := by
  induction rs generalizing st with
  | nil => rfl
  | cons r rs ih =>
    simp only [fallbackLoop, fallbackLoopAll, List.foldl_cons] at h ⊢
    by_cases hbr : cfg.MIN_INLIERS ≤ (fallbackStep cfg st r).bestInliers
    · rw [if_pos hbr] at h
      omega
    · rw [if_neg hbr] at h ⊢
      exact ih _ h

/-- With debug overlay on, a positive best always carries a recorded
quadrilateral, and the step preserves this. -/
theorem fallbackStep_quad_inv (cfg : Config) (st : FbState) (r : RefCycleInput)
    (hdbg : cfg.SHOW_DEBUG = true)
    (hst : 0 < st.bestInliers → st.bestQuad.isSome = true) :
    0 < (fallbackStep cfg st r).bestInliers →
      (fallbackStep cfg st r).bestQuad.isSome = true := by
  simp only [fallbackStep]
  split
  · exact hst
  · cases hf : r.fit with
    | none => exact hst
    | some f =>
      dsimp only
      split
      · intro h0
        simp [hdbg]
      · exact hst

/-- The early-exit loop preserves the positive-best-has-quad
invariant. -/
theorem fallbackLoop_quad_inv (cfg : Config) (rs : List RefCycleInput)
    (hdbg : cfg.SHOW_DEBUG = true) :
    ∀ st : FbState, (0 < st.bestInliers → st.bestQuad.isSome = true) →
      0 < (fallbackLoop cfg rs st).bestInliers →
        (fallbackLoop cfg rs st).bestQuad.isSome = true := by
  induction rs with
  | nil => intro st hst; exact hst
  | cons r rs ih =>
    intro st hst
    simp only [fallbackLoop]
    by_cases hbr : cfg.MIN_INLIERS ≤ (fallbackStep cfg st r).bestInliers
    · rw [if_pos hbr]
      exact fallbackStep_quad_inv cfg st r hdbg hst
    · rw [if_neg hbr]
      exact ih _ (fallbackStep_quad_inv cfg st r hdbg hst)

/-- C9: the early exit at the inlier bar is sound: the per-cycle
presence decision (for any `templateHit` flag) computed from the
early-exit loop equals the one the exhaustive loop would produce, and
once the bar is met the early-exit result carries a projected overlay
quadrilateral (debug overlay on, positive bar). -/
theorem early_exit_equiv_C9 (cfg : Config) (rs : List RefCycleInput) (th : Bool)
    (hdbg : cfg.SHOW_DEBUG = true) (hmin : 1 ≤ cfg.MIN_INLIERS) :
    ((cfg.MIN_INLIERS ≤ (fallbackLoop cfg rs {}).bestInliers)
        ↔ (cfg.MIN_INLIERS ≤ (fallbackLoopAll cfg rs {}).bestInliers)) ∧
    ((th && decide (cfg.MIN_INLIERS ≤ (fallbackLoop cfg rs {}).bestInliers))
        = (th && decide (cfg.MIN_INLIERS ≤ (fallbackLoopAll cfg rs {}).bestInliers))) ∧
    (cfg.MIN_INLIERS ≤ (fallbackLoop cfg rs {}).bestInliers →
      ((fallbackLoop cfg rs {}).bestQuad).isSome = true) := by
  have hiff : (cfg.MIN_INLIERS ≤ (fallbackLoop cfg rs {}).bestInliers)
      ↔ (cfg.MIN_INLIERS ≤ (fallbackLoopAll cfg rs {}).bestInliers) := by
    constructor
    · intro hle
      exact le_trans hle (fallbackLoop_le_all cfg rs {})
    · intro hle
      by_contra hlt
      rw [Nat.not_le] at hlt
      rw [fallbackLoop_eq_all_of_lt cfg rs {} hlt] at hlt
      omega
  refine ⟨hiff, ?_, ?_⟩
  · rw [decide_eq_decide.2 hiff]
  · intro hle
    refine fallbackLoop_quad_inv cfg rs hdbg {} ?_ (by omega)
    intro h0
    exact absurd h0 (by decide)

/-- Witness for C9: two references, the first fitting with 7 inliers
(above the default bar of 6), the second with 9, under the default
configuration. -/
theorem early_exit_equiv_C9_witness :
    (({} : Config).SHOW_DEBUG = true ∧ 1 ≤ ({} : Config).MIN_INLIERS) ∧
    ((({} : Config).MIN_INLIERS
        ≤ (fallbackLoop {}
            [{ tmplMaxVal := 0, knn := [[17, 20], [17, 20], [17, 20]],
               fit := some { inliers := 7, quad := [0, 0, 1, 0, 1, 1, 0, 1] } },
             { tmplMaxVal := 0, knn := [[17, 20], [17, 20], [17, 20]],
               fit := some { inliers := 9, quad := [0, 0, 2, 0, 2, 2, 0, 2] } }] {}).bestInliers
        ↔ ({} : Config).MIN_INLIERS
        ≤ (fallbackLoopAll {}
            [{ tmplMaxVal := 0, knn := [[17, 20], [17, 20], [17, 20]],
               fit := some { inliers := 7, quad := [0, 0, 1, 0, 1, 1, 0, 1] } },
             { tmplMaxVal := 0, knn := [[17, 20], [17, 20], [17, 20]],
               fit := some { inliers := 9, quad := [0, 0, 2, 0, 2, 2, 0, 2] } }] {}).bestInliers) ∧
     ((true && decide (({} : Config).MIN_INLIERS
        ≤ (fallbackLoop {}
            [{ tmplMaxVal := 0, knn := [[17, 20], [17, 20], [17, 20]],
               fit := some { inliers := 7, quad := [0, 0, 1, 0, 1, 1, 0, 1] } },
             { tmplMaxVal := 0, knn := [[17, 20], [17, 20], [17, 20]],
               fit := some { inliers := 9, quad := [0, 0, 2, 0, 2, 2, 0, 2] } }] {}).bestInliers))
        = (true && decide (({} : Config).MIN_INLIERS
        ≤ (fallbackLoopAll {}
            [{ tmplMaxVal := 0, knn := [[17, 20], [17, 20], [17, 20]],
               fit := some { inliers := 7, quad := [0, 0, 1, 0, 1, 1, 0, 1] } },
             { tmplMaxVal := 0, knn := [[17, 20], [17, 20], [17, 20]],
               fit := some { inliers := 9, quad := [0, 0, 2, 0, 2, 2, 0, 2] } }] {}).bestInliers))) ∧
     (({} : Config).MIN_INLIERS
        ≤ (fallbackLoop {}
            [{ tmplMaxVal := 0, knn := [[17, 20], [17, 20], [17, 20]],
               fit := some { inliers := 7, quad := [0, 0, 1, 0, 1, 1, 0, 1] } },
             { tmplMaxVal := 0, knn := [[17, 20], [17, 20], [17, 20]],
               fit := some { inliers := 9, quad := [0, 0, 2, 0, 2, 2, 0, 2] } }] {}).bestInliers →
      ((fallbackLoop {}
            [{ tmplMaxVal := 0, knn := [[17, 20], [17, 20], [17, 20]],
               fit := some { inliers := 7, quad := [0, 0, 1, 0, 1, 1, 0, 1] } },
             { tmplMaxVal := 0, knn := [[17, 20], [17, 20], [17, 20]],
               fit := some { inliers := 9, quad := [0, 0, 2, 0, 2, 2, 0, 2] } }] {}).bestQuad).isSome
        = true)) :=
  ⟨⟨rfl, by decide⟩,
    early_exit_equiv_C9
      {}
      [{ tmplMaxVal := 0, knn := [[17, 20], [17, 20], [17, 20]],
         fit := some { inliers := 7, quad := [0, 0, 1, 0, 1, 1, 0, 1] } },
       { tmplMaxVal := 0, knn := [[17, 20], [17, 20], [17, 20]],
         fit := some { inliers := 9, quad := [0, 0, 2, 0, 2, 2, 0, 2] } }]
      true rfl (by decide)⟩

/-- Witness for C7: a weak 3-descriptor image followed by a usable
10-descriptor image. -/
theorem weak_refs_dropped_C7_witness :
    loadRefImages [{ name := "weak", desRows := 3 }, { name := "good", desRows := 10 }]
      = (([{ name := "weak", desRows := 3 }, { name := "good", desRows := 10 }]
            : List RefImage).filter fun f => decide (8 ≤ f.desRows)).map
          (fun f => { name := f.name, desRows := f.desRows }) ∧
    ∀ r ∈ loadRefImages
        [{ name := "weak", desRows := 3 }, { name := "good", desRows := 10 }],
      8 ≤ r.desRows :=
  weak_refs_dropped_C7
    [{ name := "weak", desRows := 3 }, { name := "good", desRows := 10 }]

/-- C10: a frame with fewer than 8 descriptors skips the per-reference
matching loop, so the cycle reports zero inliers, no overlay quad, and
(for any positive inlier bar, default 6) no presence — whatever the
template gate said. -/
theorem frame_descriptor_minimum_C10 (cfg : Config) (refs : List RefCycleInput)
    (frame : FrameInput) (h8 : frame.desRows < 8) (hmin : 1 ≤ cfg.MIN_INLIERS) :
    (runCycle cfg { refs := refs, frame := frame }).bestInliers = 0 ∧
    (runCycle cfg { refs := refs, frame := frame }).bestQuad = none ∧
    (runCycle cfg { refs := refs, frame := frame }).waferPresent = false := by
  have hlt : ¬ (8 ≤ frame.desRows) := by omega
  have hm : ¬ (cfg.MIN_INLIERS ≤ 0) := by omega
  refine ⟨?_, ?_, ?_⟩ <;> simp [runCycle, hlt, hm]

/-- Witness for C10: a 5-descriptor frame with a gate-clearing
reference under the default configuration. -/
theorem frame_descriptor_minimum_C10_witness :
    (gateOnlyInput.frame.desRows < 8 ∧ 1 ≤ ({} : Config).MIN_INLIERS) ∧
    ((runCycle {} { refs := gateOnlyInput.refs, frame := gateOnlyInput.frame }).bestInliers = 0 ∧
     (runCycle {} { refs := gateOnlyInput.refs, frame := gateOnlyInput.frame }).bestQuad = none ∧
     (runCycle {} { refs := gateOnlyInput.refs, frame := gateOnlyInput.frame }).waferPresent = false) :=
  ⟨⟨by decide, by decide⟩,
    frame_descriptor_minimum_C10 {} _ _ (by decide) (by decide)⟩

end Wafer

